import Mathlib

/-!
Shallow embedding of the oasis-core committee node orchestrator
(worker/common/committee node), the simple scheduler facade and the
transaction pool boundary it wraps.

The per-block handler `handleNewBlockLocked`, the event loop `runLoop` /
`worker`, and `nodeStop` are translated from the Go source.  External
collaborators (consensus backend, registry, beacon, hooks, group, pool)
are modelled as oracles in `Env`; every observable call the handler makes
to them is recorded in an `Action` trace, in program order.
-/

namespace OasisCommittee

/-- Epoch counter (beacon.EpochTime, a uint64 in the source). -/
abbrev EpochTime := Nat

/-- Roothash block header type.  The block package is not part of the
sources at hand; modelled from the spec data model: the recognized types
are Normal, RoundFailed, EpochTransition and Suspended, carried in a Go
uint8, so other numeric values exist and are unrecognized. -/
abbrev HeaderType := Nat

/-- Header type of a normal round. -/
def headerNormal : HeaderType := 1

/-- Header type of a failed round. -/
def headerRoundFailed : HeaderType := 2

/-- Header type of an epoch transition. -/
def headerEpochTransition : HeaderType := 3

/-- Header type of a runtime suspension. -/
def headerSuspended : HeaderType := 4

/-- A runtime (roothash) block: its header type and round number. -/
structure Block where
  headerType : HeaderType
  round : Nat
  deriving DecidableEq

/-- A consensus-layer light block, keyed by height. -/
structure LightBlock where
  height : Int
  deriving DecidableEq

/-- Registration metadata of the runtime (registry.Runtime).  Only the
fields the orchestrator reads are kept: whether a key manager is
required, and an opaque version tag to tell descriptors apart. -/
structure RuntimeDescriptor where
  keyManager : Option Nat
  ver : Nat
  deriving DecidableEq

/-- The protected shared state of the committee node, guarded by the
CrossNode lock in the source. -/
structure NodeState where
  currentBlock : Option Block
  currentBlockHeight : Int
  currentConsensusBlock : Option LightBlock
  currentDescriptor : Option RuntimeDescriptor
  currentEpoch : EpochTime
  height : Int
  deriving DecidableEq

/-- Outcome of the registry GetRuntime lookup: a descriptor, the
distinguished ErrNoSuchRuntime, or any other failure. -/
inductive RegistryLookup where
  | found (d : RuntimeDescriptor)
  | noSuchRuntime
  | lookupFailed
  deriving DecidableEq

/-- The snapshot of block data handed to TxPool.ProcessBlock. -/
structure BlockInfo where
  runtimeBlock : Option Block
  consensusBlock : Option LightBlock
  epoch : EpochTime
  activeDescriptor : Option RuntimeDescriptor
  deriving DecidableEq

/-- One observable call made by the orchestrator to a collaborator
(metrics, group, hooks, transaction pool, channels), in program order. -/
inductive Action where
  | incProcessedBlockCount
  | incProcessedEventCount
  | incFailedRoundCount
  | incEpochTransitionCount
  | setEpochNumberGauge
  | groupEpochTransition (height : Int)
  | groupRoundTransition
  | groupSuspend
  | hookEpochTransition (i : Nat)
  | hookNewBlockEarly (i : Nat)
  | hookNewBlock (i : Nat)
  | hookNewEvent (i : Nat)
  | hookRuntimeHostEvent (i : Nat)
  | poolProcessBlock (info : BlockInfo)
  | logDropInvalidBlock
  | closeInitCh
  | waitHookReady (i : Nat)
  | closeStopCh
  | poolStop
  | cancelCtx
  | closeQuitCh
  | subClose (i : Nat)
  | hrtStop
  | notifierStop
  deriving DecidableEq

/-- The external collaborators the per-block handler and the event loop
consult, as oracles: light-block fetch, registry descriptor lookup and
epoch lookup (all keyed by height, `none` = failure), the number of
registered hooks, and, for the wait on child workers, whether hook `i`
reported readiness before the stop signal. -/
structure Env where
  getLightBlock : Int → Option LightBlock
  getRuntime : Int → RegistryLookup
  getEpoch : Int → Option EpochTime
  numHooks : Nat
  hookReadyOutcome : Nat → Bool

/-- handleEpochTransitionLocked: bump the epoch-transition counter,
transition the group (its error is only logged), update the epoch-number
gauge from the snapshot, then notify every hook's epoch-transition
callback. -/
def handleEpochTransitionLocked (env : Env) (height : Int) : List Action :=
  [Action.incEpochTransitionCount, Action.groupEpochTransition height,
    Action.setEpochNumberGauge]
    ++ (List.range env.numHooks).map Action.hookEpochTransition

/-- handleSuspendLocked: suspend the group, then notify every hook's
epoch-transition callback (reused for suspend). -/
def handleSuspendLocked (env : Env) : List Action :=
  Action.groupSuspend :: (List.range env.numHooks).map Action.hookEpochTransition

/-- The descriptor/epoch refresh step of handleNewBlockLocked.  Returns
the new state and whether processing continues (`false` = the handler
returns early).  On a found descriptor it is committed before the epoch
lookup, so it survives an epoch-lookup failure; ErrNoSuchRuntime keeps
the previous descriptor; any other lookup failure aborts. -/
def refreshDescriptorEpoch (env : Env) (s : NodeState) (height : Int) :
    NodeState × Bool :=
  match env.getRuntime height with
  | RegistryLookup.lookupFailed => (s, false)
  | RegistryLookup.found ad =>
    let s2 := { s with currentDescriptor := some ad }
    match env.getEpoch height with
    | none => (s2, false)
    | some e => ({ s2 with currentEpoch := e }, true)
  | RegistryLookup.noSuchRuntime =>
    match env.getEpoch height with
    | none => (s, false)
    | some e => ({ s with currentEpoch := e }, true)

/-- The dispatch-by-header-type switch of handleNewBlockLocked: the
actions it performs, or `none` for an unrecognized header type (the
default branch, which logs and returns). -/
def dispatchActions (env : Env) (firstBlockReceived : Bool) (blk : Block)
    (height : Int) : Option (List Action) :=
  if blk.headerType = headerNormal then
    some (if firstBlockReceived then handleEpochTransitionLocked env height
          else [Action.groupRoundTransition])
  else if blk.headerType = headerRoundFailed then
    some (if firstBlockReceived then handleEpochTransitionLocked env height
          else [Action.groupRoundTransition, Action.incFailedRoundCount])
  else if blk.headerType = headerEpochTransition then
    some (handleEpochTransitionLocked env height)
  else if blk.headerType = headerSuspended then
    some (handleSuspendLocked env)
  else none

/-- handleNewBlockLocked: the per-block handler, run under the CrossNode
lock.  Bumps the processed-block counter; fetches the light block (on
failure, returns with no state change); commits CurrentBlock /
CurrentBlockHeight / CurrentConsensusBlock; on the first block or an
epoch-transition block refreshes the descriptor and epoch (failure
returns early); notifies every hook's early callback; dispatches on the
header type (unrecognized: log and return); feeds the committed data to
TxPool.ProcessBlock (its error only logged); notifies every hook's
new-block callback. -/
def handleNewBlockLocked (env : Env) (s : NodeState) (blk : Block)
    (height : Int) : NodeState × List Action :=
  let firstBlockReceived := s.currentBlock.isNone
  match env.getLightBlock height with
  | none => (s, [Action.incProcessedBlockCount])
  | some consensusBlk =>
    let s1 := { s with currentBlock := some blk, currentBlockHeight := height,
                       currentConsensusBlock := some consensusBlk }
    let refreshed :=
      if firstBlockReceived || blk.headerType = headerEpochTransition then
        refreshDescriptorEpoch env s1 height
      else (s1, true)
    match refreshed with
    | (s2, false) => (s2, [Action.incProcessedBlockCount])
    | (s2, true) =>
      let earlyHooks := (List.range env.numHooks).map Action.hookNewBlockEarly
      match dispatchActions env firstBlockReceived blk height with
      | none =>
        (s2, Action.incProcessedBlockCount :: earlyHooks
              ++ [Action.logDropInvalidBlock])
      | some disp =>
        let info : BlockInfo :=
          { runtimeBlock := s2.currentBlock,
            consensusBlock := s2.currentConsensusBlock,
            epoch := s2.currentEpoch,
            activeDescriptor := s2.currentDescriptor }
        (s2, Action.incProcessedBlockCount :: earlyHooks ++ disp
              ++ [Action.poolProcessBlock info]
              ++ (List.range env.numHooks).map Action.hookNewBlock)

/-- Deliver a sequence of runtime blocks (with their heights) to the
per-block handler, threading the state and concatenating the traces. -/
def handleBlocks (env : Env) (s : NodeState) :
    List (Block × Int) → NodeState × List Action
  | [] => (s, [])
  | (b, h) :: rest =>
    let r := handleNewBlockLocked env s b h
    let k := handleBlocks env r.1 rest
    (k.1, r.2 ++ k.2)

/-- One arrival the worker loop's select can observe: the stop signal,
the consensus block channel closing (nil block), an annotated consensus
block, an annotated runtime (roothash) block, a roothash event, or a
hosted-runtime event. -/
inductive InEvent where
  | stopSignal
  | consensusClosed
  | consensusBlock (height : Int)
  | runtimeBlock (blk : Block) (height : Int)
  | roothashEvent
  | hostEvent
  deriving DecidableEq

/-- Loop-local state of the worker: the protected node state plus the
local `initialized` flag. -/
structure LoopState where
  node : NodeState
  inited : Bool
  deriving DecidableEq

/-- The wait on the given child hooks' readiness signals: the readiness
observations made, and `true` when all were observed (`false` when the
stop signal preempted the wait on some hook). -/
def waitHooksReadyGo (env : Env) : List Nat → List Action × Bool
  | [] => ([], true)
  | i :: rest =>
    if env.hookReadyOutcome i then
      let r := waitHooksReadyGo env rest
      (Action.waitHookReady i :: r.1, r.2)
    else ([], false)

/-- The wait, after closing initCh, for every registered hook to report
readiness (each wait can be preempted by the stop signal). -/
def waitHooksReady (env : Env) : List Action × Bool :=
  waitHooksReadyGo env (List.range env.numHooks)

/-- The worker's steady-state event loop over a list of arrivals.  The
stop signal and a closed consensus channel return from the loop; a
preempted child-readiness wait returns as well.  On the first runtime
block initCh is closed, then the loop waits for every hook's readiness,
then the block is handled; every later runtime block is handled under the
lock directly. -/
def runLoop (env : Env) : List InEvent → LoopState → LoopState × List Action
  | [], st => (st, [])
  | ev :: rest, st =>
    match ev with
    | InEvent.stopSignal => (st, [])
    | InEvent.consensusClosed => (st, [])
    | InEvent.consensusBlock h =>
      runLoop env rest { st with node := { st.node with height := h } }
    | InEvent.runtimeBlock blk h =>
      if st.inited then
        let r := handleNewBlockLocked env st.node blk h
        let k := runLoop env rest { st with node := r.1 }
        (k.1, r.2 ++ k.2)
      else
        let w := waitHooksReady env
        if w.2 then
          let r := handleNewBlockLocked env st.node blk h
          let k := runLoop env rest { node := r.1, inited := true }
          (k.1, Action.closeInitCh :: (w.1 ++ r.2 ++ k.2))
        else
          ({ st with inited := true }, Action.closeInitCh :: w.1)
    | InEvent.roothashEvent =>
      let k := runLoop env rest st
      (k.1, Action.incProcessedEventCount
              :: (List.range env.numHooks).map Action.hookNewEvent ++ k.2)
    | InEvent.hostEvent =>
      let k := runLoop env rest st
      (k.1, (List.range env.numHooks).map Action.hookRuntimeHostEvent ++ k.2)

/-- Outcomes of every fallible or stop-cancellable startup step of the
worker, as oracles: whether consensus sync completed before stop, the
active-descriptor wait's result, key-manager client creation and
readiness, each subscription, provisioning, and the two starts. -/
structure StartEnv where
  syncOk : Bool
  activeDescriptor : Option RuntimeDescriptor
  kmCreateOk : Bool
  kmReadyOk : Bool
  watchConsensusOk : Bool
  watchBlocksOk : Bool
  watchEventsOk : Bool
  provisionOk : Bool
  hrtWatchOk : Bool
  hrtStartOk : Bool
  notifierStartOk : Bool

/-- Return from the worker: the actions performed so far, then the
deferred releases in reverse order of registration (so close(quitCh),
registered first, runs last). -/
def workerExit (defers : List Action) (s : NodeState) (acts : List Action) :
    NodeState × List Action :=
  (s, acts ++ defers.reverse)

/-- The tail of worker startup after the key-manager wait: the four
subscriptions, hosted-runtime provisioning and starts (each failure
returns, running the defers registered so far), then the event loop. -/
def workerAfterKM (se : StartEnv) (env : Env) (evs : List InEvent)
    (s : NodeState) (d : List Action) : NodeState × List Action :=
  if se.watchConsensusOk = false then workerExit d s [] else
  let d1 := d ++ [Action.subClose 0]
  if se.watchBlocksOk = false then workerExit d1 s [] else
  let d2 := d1 ++ [Action.subClose 1]
  if se.watchEventsOk = false then workerExit d2 s [] else
  let d3 := d2 ++ [Action.subClose 2]
  if se.provisionOk = false then workerExit d3 s [] else
  if se.hrtWatchOk = false then workerExit d3 s [] else
  let d4 := d3 ++ [Action.subClose 3]
  if se.hrtStartOk = false then workerExit d4 s [] else
  let d5 := d4 ++ [Action.hrtStop]
  if se.notifierStartOk = false then workerExit d5 s [] else
  let d6 := d5 ++ [Action.notifierStop]
  let r := runLoop env evs { node := s, inited := false }
  workerExit d6 r.1.node r.2

/-- The worker: defers close(quitCh) then cancelCtx; waits for consensus
sync (stop cancels); waits for the active descriptor and commits it to
CurrentDescriptor; when the descriptor requires a key manager, creates
the client and waits for it; then subscribes, provisions, starts, and
runs the event loop; on any return the defers run in reverse order. -/
def worker (se : StartEnv) (env : Env) (evs : List InEvent)
    (s0 : NodeState) : NodeState × List Action :=
  let d0 := [Action.closeQuitCh, Action.cancelCtx]
  if se.syncOk = false then workerExit d0 s0 [] else
  match se.activeDescriptor with
  | none => workerExit d0 s0 []
  | some rt =>
    let s1 := { s0 with currentDescriptor := some rt }
    if rt.keyManager.isSome then
      if se.kmCreateOk = false then workerExit d0 s1 [] else
      if se.kmReadyOk = false then workerExit d0 s1 [] else
      workerAfterKM se env evs s1 d0
    else workerAfterKM se env evs s1 d0

/-- The stopOnce guard of Node.Stop. -/
structure StopState where
  stopped : Bool
  deriving DecidableEq

/-- Node.Stop: under stopOnce, close the stop channel and stop the
transaction pool; later invocations have no effect. -/
def nodeStop (st : StopState) : StopState × List Action :=
  if st.stopped then (st, [])
  else ({ stopped := true }, [Action.closeStopCh, Action.poolStop])

/-- Invoke Node.Stop `n` times in sequence, concatenating the effects. -/
def nodeStopN : Nat → StopState → StopState × List Action
  | 0, st => (st, [])
  | n + 1, st =>
    let r := nodeStop st
    let k := nodeStopN n r.1
    (k.1, r.2 ++ k.2)

/-- Content-derived transaction identifier (hash.Hash in the source). -/
abbrev TxHash := Nat

/-- A weight dimension name (transaction.Weight in the source). -/
abbrev TxWeightKind := Nat

/-- A checked transaction: its identifier and declared weight vector. -/
structure CheckedTransaction where
  id : TxHash
  weights : List (TxWeightKind × Nat)
  deriving DecidableEq

/-- Pool configuration: maximum pool size and per-dimension weight
limits. -/
structure PoolConfig where
  maxPoolSize : Nat
  weightLimits : List (TxWeightKind × Nat)
  deriving DecidableEq

/-- The transaction pool's queue and configuration. -/
structure TxPool where
  txs : List CheckedTransaction
  cfg : PoolConfig
  deriving DecidableEq

/-- The pool Add errors the facade discriminates on: the duplicate
condition ErrCallAlreadyExists, and the capacity/weight rejections. -/
inductive AddError where
  | callAlreadyExists
  | poolFull
  | weightLimitReached
  deriving DecidableEq

/-- The weight a transaction declares in one dimension (0 when absent). -/
def txWeight (tx : CheckedTransaction) (w : TxWeightKind) : Nat :=
  match tx.weights.lookup w with
  | some v => v
  | none => 0

/-- Total queued weight of the pool in one dimension. -/
def poolWeight (p : TxPool) (w : TxWeightKind) : Nat :=
  (p.txs.map (fun t => txWeight t w)).sum

/-- Number of queued transactions. -/
def poolSize (p : TxPool) : Nat := p.txs.length

/-- Modelled from the spec: the transaction pool's Add operation (the
priority-queue pool implementation is not among the sources at hand).
Add fails with the duplicate condition when an identical identifier is
already queued; fails with a capacity or weight-limit condition when
admitting the transaction would exceed MaxPoolSize or any configured
weight limit; otherwise appends it to the queue. -/
def poolAdd (p : TxPool) (tx : CheckedTransaction) : Except AddError TxPool :=
  if p.txs.any (fun t => t.id = tx.id) then Except.error AddError.callAlreadyExists
  else if p.cfg.maxPoolSize < poolSize p + 1 then Except.error AddError.poolFull
  else if p.cfg.weightLimits.any
      (fun wl => wl.2 < poolWeight p wl.1 + txWeight tx wl.1) then
    Except.error AddError.weightLimitReached
  else Except.ok { p with txs := p.txs ++ [tx] }

/-- QueueTx of the simple scheduler facade: route to the pool's Add;
a nil error is success; the duplicate condition ErrCallAlreadyExists is
logged and turned into success (the pool is left as it was); any other
error is returned unchanged. -/
def QueueTx (p : TxPool) (tx : CheckedTransaction) : Except AddError TxPool :=
  match poolAdd p tx with
  | Except.ok p2 => Except.ok p2
  | Except.error AddError.callAlreadyExists => Except.ok p
  | Except.error e => Except.error e

/-- Whether an action is the group epoch transition performed by
handleEpochTransitionLocked. -/
def isEpochTransitionAct : Action → Bool
  | Action.groupEpochTransition _ => true
  | _ => false

/-- Whether an action is the group round transition. -/
def isRoundTransitionAct : Action → Bool
  | Action.groupRoundTransition => true
  | _ => false

/-- Whether an action is the group suspend performed by
handleSuspendLocked. -/
def isSuspendAct : Action → Bool
  | Action.groupSuspend => true
  | _ => false

/-- Whether an action is a hook callback or a transaction-pool update. -/
def isHookOrPoolAct : Action → Bool
  | Action.hookEpochTransition _ => true
  | Action.hookNewBlockEarly _ => true
  | Action.hookNewBlock _ => true
  | Action.hookNewEvent _ => true
  | Action.hookRuntimeHostEvent _ => true
  | Action.poolProcessBlock _ => true
  | Action.poolStop => true
  | _ => false

/-- Number of epoch transitions performed in a trace. -/
def epochTransitionCountIn (tr : List Action) : Nat :=
  tr.countP isEpochTransitionAct

/-- Number of round transitions performed in a trace. -/
def roundTransitionCountIn (tr : List Action) : Nat :=
  tr.countP isRoundTransitionAct

/-- Number of suspends performed in a trace. -/
def suspendCountIn (tr : List Action) : Nat :=
  tr.countP isSuspendAct

/-- The class of a state-transition notification, for reading off the
dispatch sequence of a trace. -/
inductive Notif where
  | epochTransition
  | roundTransition
  | suspend
  deriving DecidableEq

/-- The sequence of state-transition notifications in a trace. -/
def notifs (tr : List Action) : List Notif :=
  tr.filterMap (fun a =>
    match a with
    | Action.groupEpochTransition _ => some Notif.epochTransition
    | Action.groupRoundTransition => some Notif.roundTransition
    | Action.groupSuspend => some Notif.suspend
    | _ => none)

/-- A concrete descriptor with no key-manager requirement. -/
def descA : RuntimeDescriptor := { keyManager := none, ver := 1 }

/-- A concrete descriptor returned by registry lookups. -/
def descB : RuntimeDescriptor := { keyManager := none, ver := 2 }

/-- A concrete environment in which every collaborator call succeeds and
one hook is registered and ready. -/
def envOk : Env :=
  { getLightBlock := fun h => some { height := h },
    getRuntime := fun _ => RegistryLookup.found descB,
    getEpoch := fun _ => some 7,
    numHooks := 1,
    hookReadyOutcome := fun _ => true }

/-- A concrete environment in which the light-block fetch fails. -/
def envNoLightBlock : Env :=
  { envOk with getLightBlock := fun _ => none }

/-- A concrete environment in which the registry lookup reports
ErrNoSuchRuntime. -/
def envNoSuchRuntime : Env :=
  { envOk with getRuntime := fun _ => RegistryLookup.noSuchRuntime }

/-- A concrete environment in which the registry lookup fails with some
other error. -/
def envRegistryDown : Env :=
  { envOk with getRuntime := fun _ => RegistryLookup.lookupFailed }

/-- The node state as built by NewNode, before any block. -/
def freshState : NodeState :=
  { currentBlock := none, currentBlockHeight := 0,
    currentConsensusBlock := none, currentDescriptor := none,
    currentEpoch := 0, height := 0 }

/-- A concrete state in which a block has already been received. -/
def stateWithBlock : NodeState :=
  { currentBlock := some { headerType := headerNormal, round := 3 },
    currentBlockHeight := 10,
    currentConsensusBlock := some { height := 10 },
    currentDescriptor := some descA, currentEpoch := 2, height := 10 }

/-- A concrete pool holding one transaction, under capacity. -/
def poolWithTx : TxPool :=
  { txs := [{ id := 1, weights := [(0, 10)] }],
    cfg := { maxPoolSize := 2, weightLimits := [(0, 1000)] } }

/-- A resubmission of the transaction already queued in `poolWithTx`. -/
def txDup : CheckedTransaction := { id := 1, weights := [(0, 10)] }

/-- Whether an action is one the per-block handler can perform (as
opposed to the loop- and lifecycle-level actions). -/
def isBlockLevelAct : Action → Bool
  | Action.incProcessedBlockCount => true
  | Action.incFailedRoundCount => true
  | Action.incEpochTransitionCount => true
  | Action.setEpochNumberGauge => true
  | Action.groupEpochTransition _ => true
  | Action.groupRoundTransition => true
  | Action.groupSuspend => true
  | Action.hookEpochTransition _ => true
  | Action.hookNewBlockEarly _ => true
  | Action.hookNewBlock _ => true
  | Action.poolProcessBlock _ => true
  | Action.logDropInvalidBlock => true
  | _ => false

/-- Whether an action is one the steady-state event loop can perform
(block-level actions plus event fan-out and the initialization
signalling); the lifecycle actions (quit, stop, defers) are not. -/
def isLoopAct : Action → Bool
  | Action.incProcessedEventCount => true
  | Action.hookNewEvent _ => true
  | Action.hookRuntimeHostEvent _ => true
  | Action.closeInitCh => true
  | Action.waitHookReady _ => true
  | a => isBlockLevelAct a

/-- A concrete first block of type Normal. -/
def blkNormal0 : Block := { headerType := headerNormal, round := 0 }

/-- A concrete first block of type Suspended. -/
def blkSuspended0 : Block := { headerType := headerSuspended, round := 0 }

/-- The §8 scenario: blocks Normal (first), Normal, EpochTransition,
Suspended, at increasing heights. -/
def scenarioBlocks : List (Block × Int) :=
  [({ headerType := headerNormal, round := 0 }, 1),
   ({ headerType := headerNormal, round := 1 }, 2),
   ({ headerType := headerEpochTransition, round := 2 }, 3),
   ({ headerType := headerSuspended, round := 3 }, 4)]

/-- A StartEnv in which every startup step succeeds. -/
def startOk : StartEnv :=
  { syncOk := true, activeDescriptor := some descA, kmCreateOk := true,
    kmReadyOk := true, watchConsensusOk := true, watchBlocksOk := true,
    watchEventsOk := true, provisionOk := true, hrtWatchOk := true,
    hrtStartOk := true, notifierStartOk := true }

theorem countP_map_eq_zero (p : Action → Bool) (f : Nat → Action)
    (l : List Nat) (h : ∀ i, p (f i) = false) : (l.map f).countP p = 0 := by
  apply List.countP_eq_zero.mpr
  intro a ha
  obtain ⟨i, _, rfl⟩ := List.mem_map.mp ha
  simp [h i]

theorem countP_handleEpochTransition (env : Env) (h : Int) :
    epochTransitionCountIn (handleEpochTransitionLocked env h) = 1 ∧
    roundTransitionCountIn (handleEpochTransitionLocked env h) = 0 ∧
    suspendCountIn (handleEpochTransitionLocked env h) = 0 := by
  have hET : ((List.range env.numHooks).map Action.hookEpochTransition).countP
      isEpochTransitionAct = 0 := countP_map_eq_zero _ _ _ (fun _ => rfl)
  have hRT : ((List.range env.numHooks).map Action.hookEpochTransition).countP
      isRoundTransitionAct = 0 := countP_map_eq_zero _ _ _ (fun _ => rfl)
  have hS : ((List.range env.numHooks).map Action.hookEpochTransition).countP
      isSuspendAct = 0 := countP_map_eq_zero _ _ _ (fun _ => rfl)
  unfold handleEpochTransitionLocked epochTransitionCountIn
    roundTransitionCountIn suspendCountIn
  refine ⟨?_, ?_, ?_⟩ <;>
    simp [List.countP_append, List.countP_cons, isEpochTransitionAct,
      isRoundTransitionAct, isSuspendAct, hET, hRT, hS]

theorem countP_handleSuspend (env : Env) :
    suspendCountIn (handleSuspendLocked env) = 1 ∧
    epochTransitionCountIn (handleSuspendLocked env) = 0 ∧
    roundTransitionCountIn (handleSuspendLocked env) = 0 := by
  have hET : ((List.range env.numHooks).map Action.hookEpochTransition).countP
      isEpochTransitionAct = 0 := countP_map_eq_zero _ _ _ (fun _ => rfl)
  have hRT : ((List.range env.numHooks).map Action.hookEpochTransition).countP
      isRoundTransitionAct = 0 := countP_map_eq_zero _ _ _ (fun _ => rfl)
  have hS : ((List.range env.numHooks).map Action.hookEpochTransition).countP
      isSuspendAct = 0 := countP_map_eq_zero _ _ _ (fun _ => rfl)
  unfold handleSuspendLocked epochTransitionCountIn
    roundTransitionCountIn suspendCountIn
  refine ⟨?_, ?_, ?_⟩ <;>
    simp [List.countP_append, List.countP_cons, isEpochTransitionAct,
      isRoundTransitionAct, isSuspendAct, hET, hRT, hS]

/-- C4: when the consensus light-block fetch at the event's height fails,
the per-block handler returns without mutating any protected-state field
and without invoking any hook or pool update; only the processed-block
counter was bumped. -/
theorem c4_lightblock_failure_discards_atomically (env : Env)
    (s : NodeState) (blk : Block) (h : Int)
    (hlb : env.getLightBlock h = none) :
    (handleNewBlockLocked env s blk h).1 = s ∧
    (handleNewBlockLocked env s blk h).2 = [Action.incProcessedBlockCount] ∧
    (handleNewBlockLocked env s blk h).2.countP isHookOrPoolAct = 0 := by
  unfold handleNewBlockLocked
  rw [hlb]
  refine ⟨rfl, rfl, ?_⟩
  simp [List.countP_cons, isHookOrPoolAct]

/-- C4 witness at a concrete failing fetch. -/
theorem c4_witness :
    (handleNewBlockLocked envNoLightBlock stateWithBlock
        { headerType := headerNormal, round := 4 } 11).1 = stateWithBlock ∧
    (handleNewBlockLocked envNoLightBlock stateWithBlock
        { headerType := headerNormal, round := 4 } 11).2
      = [Action.incProcessedBlockCount] := by
  have h := c4_lightblock_failure_discards_atomically envNoLightBlock
    stateWithBlock { headerType := headerNormal, round := 4 } 11 rfl
  exact ⟨h.1, h.2.1⟩

/-- C9: for a block that is not the first received and is not an epoch
transition, the handler leaves CurrentDescriptor and CurrentEpoch
unchanged, whatever the environment does. -/
theorem c9_descriptor_epoch_only_refreshed_on_first_or_epoch (env : Env)
    (s : NodeState) (blk : Block) (h : Int) (b : Block)
    (hb : s.currentBlock = some b)
    (ht : blk.headerType ≠ headerEpochTransition) :
    (handleNewBlockLocked env s blk h).1.currentDescriptor
        = s.currentDescriptor ∧
    (handleNewBlockLocked env s blk h).1.currentEpoch = s.currentEpoch := by
  unfold handleNewBlockLocked
  cases hlb : env.getLightBlock h with
  | none => exact ⟨rfl, rfl⟩
  | some cb =>
    simp only [hb, Option.isNone_some, Bool.false_or, decide_eq_true_eq]
    rw [if_neg ht]
    cases hd : dispatchActions env false blk h with
    | none => simp [hd]
    | some disp => simp [hd]

/-- C9 witness: a later RoundFailed block in the all-success environment
leaves descriptor and epoch as they were. -/
theorem c9_witness :
    (handleNewBlockLocked envOk stateWithBlock
        { headerType := headerRoundFailed, round := 4 } 11).1.currentDescriptor
      = stateWithBlock.currentDescriptor ∧
    (handleNewBlockLocked envOk stateWithBlock
        { headerType := headerRoundFailed, round := 4 } 11).1.currentEpoch
      = stateWithBlock.currentEpoch :=
  c9_descriptor_epoch_only_refreshed_on_first_or_epoch envOk stateWithBlock
    { headerType := headerRoundFailed, round := 4 } 11
    { headerType := headerNormal, round := 3 } rfl (by decide)

/-- C5: during the descriptor refresh on the first block or on an
epoch-transition block, ErrNoSuchRuntime is not an error: the previous
descriptor is kept and processing continues (the epoch is refreshed and
the early hook notifications still run); any other lookup failure aborts
the remainder of the update (only the processed-block counter and the
already-committed block fields remain). -/
theorem c5_no_such_runtime_not_an_error (env : Env) (s : NodeState)
    (blk : Block) (h : Int) (cb : LightBlock)
    (htrig : s.currentBlock = none ∨ blk.headerType = headerEpochTransition)
    (hlb : env.getLightBlock h = some cb) :
    (∀ e, env.getRuntime h = RegistryLookup.noSuchRuntime →
      env.getEpoch h = some e →
      (handleNewBlockLocked env s blk h).1.currentDescriptor
          = s.currentDescriptor ∧
      (handleNewBlockLocked env s blk h).1.currentEpoch = e ∧
      ∀ i, i < env.numHooks →
        Action.hookNewBlockEarly i ∈ (handleNewBlockLocked env s blk h).2) ∧
    (env.getRuntime h = RegistryLookup.lookupFailed →
      (handleNewBlockLocked env s blk h).1
          = { s with currentBlock := some blk, currentBlockHeight := h,
                     currentConsensusBlock := some cb } ∧
      (handleNewBlockLocked env s blk h).2
          = [Action.incProcessedBlockCount]) := by
  have hcond : (s.currentBlock.isNone
      || decide (blk.headerType = headerEpochTransition)) = true := by
    rcases htrig with h1 | h1 <;> simp [h1]
  unfold handleNewBlockLocked
  rw [hlb]
  simp only [hcond, if_true]
  constructor
  · intro e hreg hep
    unfold refreshDescriptorEpoch
    rw [hreg, hep]
    have hmem : ∀ i, i < env.numHooks → Action.hookNewBlockEarly i
        ∈ (List.range env.numHooks).map Action.hookNewBlockEarly :=
      fun i hi => List.mem_map.mpr ⟨i, List.mem_range.mpr hi, rfl⟩
    cases hd : dispatchActions env s.currentBlock.isNone blk h with
    | none =>
      refine ⟨by simp [hd], by simp [hd], ?_⟩
      intro i hi
      simp only [hd]
      exact List.mem_cons_of_mem _ (List.mem_append.mpr (Or.inl (hmem i hi)))
    | some disp =>
      refine ⟨by simp [hd], by simp [hd], ?_⟩
      intro i hi
      simp only [hd]
      exact List.mem_cons_of_mem _ (List.mem_append.mpr (Or.inl
        (List.mem_append.mpr (Or.inl
          (List.mem_append.mpr (Or.inl (hmem i hi)))))))
  · intro hreg
    unfold refreshDescriptorEpoch
    rw [hreg]
    exact ⟨rfl, rfl⟩

/-- C5 witness: a first block in the no-such-runtime environment keeps
the descriptor and refreshes the epoch; a first block in the
registry-down environment aborts after the block-field commit. -/
theorem c5_witness :
    ((handleNewBlockLocked envNoSuchRuntime freshState
        { headerType := headerNormal, round := 0 } 5).1.currentDescriptor
      = freshState.currentDescriptor ∧
    (handleNewBlockLocked envNoSuchRuntime freshState
        { headerType := headerNormal, round := 0 } 5).1.currentEpoch = 7) ∧
    (handleNewBlockLocked envRegistryDown freshState
        { headerType := headerNormal, round := 0 } 5).2
      = [Action.incProcessedBlockCount] := by
  have h1 := c5_no_such_runtime_not_an_error envNoSuchRuntime freshState
    { headerType := headerNormal, round := 0 } 5 { height := 5 }
    (Or.inl rfl) rfl
  have h2 := c5_no_such_runtime_not_an_error envRegistryDown freshState
    { headerType := headerNormal, round := 0 } 5 { height := 5 }
    (Or.inl rfl) rfl
  exact ⟨⟨(h1.1 7 rfl rfl).1, (h1.1 7 rfl rfl).2.1⟩, (h2.2 rfl).2⟩

/-- C6: the scheduler facade's QueueTx returns success when the pool
reports the duplicate-submission condition ErrCallAlreadyExists, leaving
the pool (and hence its size) as it was, so a duplicate is
indistinguishable from a fresh admission; any other pool error is
returned to the caller unchanged. -/
theorem c6_queue_tx_normalizes_duplicates (p : TxPool)
    (tx : CheckedTransaction) :
    (poolAdd p tx = Except.error AddError.callAlreadyExists →
      QueueTx p tx = Except.ok p) ∧
    (∀ e, e ≠ AddError.callAlreadyExists →
      poolAdd p tx = Except.error e → QueueTx p tx = Except.error e) ∧
    (p.txs.any (fun t => t.id = tx.id) = true →
      QueueTx p tx = Except.ok p ∧
      ∀ q, QueueTx p tx = Except.ok q → poolSize q = poolSize p) := by
  refine ⟨?_, ?_, ?_⟩
  · intro hadd
    unfold QueueTx
    rw [hadd]
  · intro e he hadd
    unfold QueueTx
    rw [hadd]
    cases e with
    | callAlreadyExists => exact absurd rfl he
    | poolFull => rfl
    | weightLimitReached => rfl
  · intro hdup
    have hadd : poolAdd p tx = Except.error AddError.callAlreadyExists := by
      unfold poolAdd
      rw [if_pos hdup]
    have hok : QueueTx p tx = Except.ok p := by
      unfold QueueTx
      rw [hadd]
    refine ⟨hok, ?_⟩
    intro q hq
    rw [hok] at hq
    cases hq
    rfl

/-- C6 witness: resubmitting the queued transaction yields facade
success with the pool size unchanged at 1. -/
theorem c6_witness :
    QueueTx poolWithTx txDup = Except.ok poolWithTx ∧
    poolSize poolWithTx = 1 :=
  ⟨((c6_queue_tx_normalizes_duplicates poolWithTx txDup).2.2 (by decide)).1,
    rfl⟩

theorem countP_full_trace (p : Action → Bool) (env : Env)
    (disp : List Action) (info : BlockInfo)
    (hInc : p Action.incProcessedBlockCount = false)
    (hEarly : ∀ i, p (Action.hookNewBlockEarly i) = false)
    (hPool : p (Action.poolProcessBlock info) = false)
    (hNew : ∀ i, p (Action.hookNewBlock i) = false) :
    (Action.incProcessedBlockCount
      :: (List.range env.numHooks).map Action.hookNewBlockEarly ++ disp
      ++ [Action.poolProcessBlock info]
      ++ (List.range env.numHooks).map Action.hookNewBlock).countP p
      = disp.countP p := by
  have h1 := countP_map_eq_zero p Action.hookNewBlockEarly
    (List.range env.numHooks) hEarly
  have h2 := countP_map_eq_zero p Action.hookNewBlock
    (List.range env.numHooks) hNew
  simp [List.countP_cons, List.countP_append, h1, h2, hInc, hPool]

theorem handle_trace_cases (env : Env) (s : NodeState) (blk : Block)
    (h : Int) (cb : LightBlock)
    (hlb : env.getLightBlock h = some cb)
    (hreg : env.getRuntime h ≠ RegistryLookup.lookupFailed)
    (hep : (env.getEpoch h).isSome = true) :
    (dispatchActions env s.currentBlock.isNone blk h = none →
      (handleNewBlockLocked env s blk h).2
        = Action.incProcessedBlockCount
            :: (List.range env.numHooks).map Action.hookNewBlockEarly
            ++ [Action.logDropInvalidBlock]) ∧
    (∀ disp, dispatchActions env s.currentBlock.isNone blk h = some disp →
      ∃ info, (handleNewBlockLocked env s blk h).2
        = Action.incProcessedBlockCount
            :: (List.range env.numHooks).map Action.hookNewBlockEarly
            ++ disp ++ [Action.poolProcessBlock info]
            ++ (List.range env.numHooks).map Action.hookNewBlock) := by
  obtain ⟨e, he⟩ := Option.isSome_iff_exists.mp hep
  simp only [handleNewBlockLocked, hlb]
  by_cases hc : (s.currentBlock.isNone
      || decide (blk.headerType = headerEpochTransition)) = true
  · rw [if_pos hc]
    unfold refreshDescriptorEpoch
    cases hr : env.getRuntime h with
    | lookupFailed => exact absurd hr hreg
    | found ad =>
      rw [he]
      constructor
      · intro hd
        rw [hd]
      · intro disp hd
        rw [hd]
        exact ⟨_, rfl⟩
    | noSuchRuntime =>
      rw [he]
      constructor
      · intro hd
        rw [hd]
      · intro disp hd
        rw [hd]
        exact ⟨_, rfl⟩
  · rw [if_neg hc]
    constructor
    · intro hd
      rw [hd]
    · intro disp hd
      rw [hd]
      exact ⟨_, rfl⟩

/-- C1 counterexample: at the very first received block, when the header
type is Suspended (all collaborator calls succeeding), the handler
performs a Suspend — Group.Suspend, with the hooks' epoch-transition
callback reused — and no Epoch Transition (handleEpochTransitionLocked,
with Group.EpochTransition and the epoch-transition counter, is never
invoked); and when the light-block fetch fails, a first Normal block
produces no Epoch Transition at all.  So the first block does not
produce exactly one Epoch Transition regardless of header type. -/
theorem c1_counterexample :
    freshState.currentBlock = none ∧
    blkSuspended0.headerType = headerSuspended ∧
    epochTransitionCountIn
      (handleNewBlockLocked envOk freshState blkSuspended0 5).2 = 0 ∧
    suspendCountIn
      (handleNewBlockLocked envOk freshState blkSuspended0 5).2 = 1 ∧
    (handleNewBlockLocked envOk freshState blkSuspended0 5).2.count
      (Action.hookEpochTransition 0) = 1 ∧
    epochTransitionCountIn
      (handleNewBlockLocked envNoLightBlock freshState blkNormal0 5).2
      = 0 := by
  decide

/-- C1 (amended): for every first received block whose processing is not
aborted (the light-block fetch succeeds, the descriptor lookup does not
hard-fail, the epoch fetch succeeds): if the header type is Normal,
RoundFailed, or EpochTransition, the handler performs exactly one Epoch
Transition and no Suspend; if it is Suspended, exactly one Suspend and no
Epoch Transition; in every case it performs no Round Transition. -/
theorem c1_first_block_forces_transition (env : Env) (s : NodeState)
    (blk : Block) (h : Int) (cb : LightBlock)
    (hfirst : s.currentBlock = none)
    (hlb : env.getLightBlock h = some cb)
    (hreg : env.getRuntime h ≠ RegistryLookup.lookupFailed)
    (hep : (env.getEpoch h).isSome = true) :
    roundTransitionCountIn (handleNewBlockLocked env s blk h).2 = 0 ∧
    (blk.headerType = headerNormal ∨ blk.headerType = headerRoundFailed
        ∨ blk.headerType = headerEpochTransition →
      epochTransitionCountIn (handleNewBlockLocked env s blk h).2 = 1 ∧
      suspendCountIn (handleNewBlockLocked env s blk h).2 = 0) ∧
    (blk.headerType = headerSuspended →
      suspendCountIn (handleNewBlockLocked env s blk h).2 = 1 ∧
      epochTransitionCountIn (handleNewBlockLocked env s blk h).2 = 0) := by
  have hfb : s.currentBlock.isNone = true := by rw [hfirst]; rfl
  have htc := handle_trace_cases env s blk h cb hlb hreg hep
  have hdisp : ∀ t, blk.headerType = t →
      (t = headerNormal ∨ t = headerRoundFailed ∨ t = headerEpochTransition →
        dispatchActions env s.currentBlock.isNone blk h
          = some (handleEpochTransitionLocked env h)) ∧
      (t = headerSuspended →
        dispatchActions env s.currentBlock.isNone blk h
          = some (handleSuspendLocked env)) := by
    intro t ht
    unfold dispatchActions
    rw [hfb, ht]
    constructor
    · rintro (rfl | rfl | rfl) <;> simp [headerNormal, headerRoundFailed,
        headerEpochTransition]
    · rintro rfl
      simp [headerNormal, headerRoundFailed, headerEpochTransition,
        headerSuspended]
  have hcountET : ∀ disp,
      dispatchActions env s.currentBlock.isNone blk h = some disp →
      roundTransitionCountIn (handleNewBlockLocked env s blk h).2
          = roundTransitionCountIn disp ∧
      epochTransitionCountIn (handleNewBlockLocked env s blk h).2
          = epochTransitionCountIn disp ∧
      suspendCountIn (handleNewBlockLocked env s blk h).2
          = suspendCountIn disp := by
    intro disp hd
    obtain ⟨info, htr⟩ := htc.2 disp hd
    unfold roundTransitionCountIn epochTransitionCountIn suspendCountIn
    rw [htr]
    exact ⟨countP_full_trace _ env disp info rfl (fun _ => rfl) rfl
        (fun _ => rfl),
      countP_full_trace _ env disp info rfl (fun _ => rfl) rfl
        (fun _ => rfl),
      countP_full_trace _ env disp info rfl (fun _ => rfl) rfl
        (fun _ => rfl)⟩
  by_cases hN : blk.headerType = headerNormal
  · have hd := (hdisp _ hN).1 (Or.inl rfl)
    have hcnt := hcountET _ hd
    have hcet := countP_handleEpochTransition env h
    refine ⟨?_, fun _ => ⟨?_, ?_⟩, fun hS => absurd (hN ▸ hS) (by decide)⟩
    · rw [hcnt.1]; exact hcet.2.1
    · rw [hcnt.2.1]; exact hcet.1
    · rw [hcnt.2.2]; exact hcet.2.2
  by_cases hR : blk.headerType = headerRoundFailed
  · have hd := (hdisp _ hR).1 (Or.inr (Or.inl rfl))
    have hcnt := hcountET _ hd
    have hcet := countP_handleEpochTransition env h
    refine ⟨?_, fun _ => ⟨?_, ?_⟩, fun hS => absurd (hR ▸ hS) (by decide)⟩
    · rw [hcnt.1]; exact hcet.2.1
    · rw [hcnt.2.1]; exact hcet.1
    · rw [hcnt.2.2]; exact hcet.2.2
  by_cases hE : blk.headerType = headerEpochTransition
  · have hd := (hdisp _ hE).1 (Or.inr (Or.inr rfl))
    have hcnt := hcountET _ hd
    have hcet := countP_handleEpochTransition env h
    refine ⟨?_, fun _ => ⟨?_, ?_⟩, fun hS => absurd (hE ▸ hS) (by decide)⟩
    · rw [hcnt.1]; exact hcet.2.1
    · rw [hcnt.2.1]; exact hcet.1
    · rw [hcnt.2.2]; exact hcet.2.2
  by_cases hS : blk.headerType = headerSuspended
  · have hd := (hdisp _ hS).2 rfl
    have hcnt := hcountET _ hd
    have hcs := countP_handleSuspend env
    refine ⟨?_, fun hx => ?_, fun _ => ⟨?_, ?_⟩⟩
    · rw [hcnt.1]; exact hcs.2.2
    · rcases hx with hx | hx | hx <;> exact absurd (hS ▸ hx) (by decide)
    · rw [hcnt.2.2]; exact hcs.1
    · rw [hcnt.2.1]; exact hcs.2.1
  · have hd : dispatchActions env s.currentBlock.isNone blk h = none := by
      unfold dispatchActions
      rw [if_neg hN, if_neg hR, if_neg hE, if_neg hS]
    have htr := htc.1 hd
    refine ⟨?_, fun hx => ?_, fun hx => absurd hx hS⟩
    · unfold roundTransitionCountIn
      rw [htr]
      simp [List.countP_cons, List.countP_append, isRoundTransitionAct,
        countP_map_eq_zero isRoundTransitionAct Action.hookNewBlockEarly
          (List.range env.numHooks) (fun _ => rfl)]
    · rcases hx with hx | hx | hx
      · exact absurd hx hN
      · exact absurd hx hR
      · exact absurd hx hE

/-- C1 witness: a first RoundFailed block in the all-success environment
performs exactly one Epoch Transition and no Round Transition. -/
theorem c1_witness :
    epochTransitionCountIn (handleNewBlockLocked envOk freshState
      { headerType := headerRoundFailed, round := 0 } 5).2 = 1 ∧
    roundTransitionCountIn (handleNewBlockLocked envOk freshState
      { headerType := headerRoundFailed, round := 0 } 5).2 = 0 := by
  have h := c1_first_block_forces_transition envOk freshState
    { headerType := headerRoundFailed, round := 0 } 5 { height := 5 }
    rfl rfl (by decide) rfl
  exact ⟨(h.2.1 (Or.inr (Or.inl rfl))).1, h.1⟩

/-- C2 counterexample: a block with unrecognized header type 9, arriving
after a block has already been processed (all collaborator calls
succeeding), is logged and dropped, but CurrentBlock does change to the
dropped block and the hooks' early-notification callback does run — so
"every field of the protected state is the same and no hook callback
takes effect" is false. -/
theorem c2_counterexample :
    ¬(9 = headerNormal ∨ 9 = headerRoundFailed ∨ 9 = headerEpochTransition
        ∨ 9 = headerSuspended) ∧
    (handleNewBlockLocked envOk stateWithBlock
        { headerType := 9, round := 4 } 11).1.currentBlock
      = some { headerType := 9, round := 4 } ∧
    (handleNewBlockLocked envOk stateWithBlock
        { headerType := 9, round := 4 } 11).1.currentBlock
      ≠ stateWithBlock.currentBlock ∧
    Action.hookNewBlockEarly 0
      ∈ (handleNewBlockLocked envOk stateWithBlock
          { headerType := 9, round := 4 } 11).2 := by
  decide

/-- C2 (amended): for a non-first block of unrecognized header type whose
light-block fetch succeeds, the handler logs and drops the block without
dispatch, pool update, or new-block hook callback, and CurrentDescriptor
and CurrentEpoch keep their values — but CurrentBlock,
CurrentBlockHeight and CurrentConsensusBlock are updated to the dropped
block's values, and every hook's early-notification callback runs before
the drop. -/
theorem c2_unrecognized_header_drops_after_commit (env : Env)
    (s : NodeState) (blk : Block) (h : Int) (cb : LightBlock) (b : Block)
    (hb : s.currentBlock = some b)
    (hlb : env.getLightBlock h = some cb)
    (h1 : blk.headerType ≠ headerNormal)
    (h2 : blk.headerType ≠ headerRoundFailed)
    (h3 : blk.headerType ≠ headerEpochTransition)
    (h4 : blk.headerType ≠ headerSuspended) :
    (handleNewBlockLocked env s blk h).1
      = { s with currentBlock := some blk, currentBlockHeight := h,
                 currentConsensusBlock := some cb } ∧
    (handleNewBlockLocked env s blk h).2
      = Action.incProcessedBlockCount
          :: (List.range env.numHooks).map Action.hookNewBlockEarly
          ++ [Action.logDropInvalidBlock] := by
  have hd : dispatchActions env false blk h = none := by
    unfold dispatchActions
    rw [if_neg h1, if_neg h2, if_neg h3, if_neg h4]
  unfold handleNewBlockLocked
  rw [hlb]
  simp only [hb, Option.isNone_some, Bool.false_or, decide_eq_true_eq]
  rw [if_neg h3, hd]
  exact ⟨rfl, rfl⟩

/-- C2 witness at header type 9 after a first block, in the all-success
environment. -/
theorem c2_witness :
    (handleNewBlockLocked envOk stateWithBlock
        { headerType := 9, round := 5 } 11).1
      = { stateWithBlock with
            currentBlock := some { headerType := 9, round := 5 },
            currentBlockHeight := 11,
            currentConsensusBlock := some { height := 11 } } ∧
    (handleNewBlockLocked envOk stateWithBlock
        { headerType := 9, round := 5 } 11).2
      = [Action.incProcessedBlockCount, Action.hookNewBlockEarly 0,
          Action.logDropInvalidBlock] := by
  have h := c2_unrecognized_header_drops_after_commit envOk stateWithBlock
    { headerType := 9, round := 5 } 11 { height := 11 }
    { headerType := headerNormal, round := 3 } rfl rfl
    (by decide) (by decide) (by decide) (by decide)
  exact ⟨h.1, by rw [h.2]; rfl⟩

/-- C8: for every block that reaches its dispatch (light-block fetch
succeeds, a triggered refresh does not abort, and the header type is
recognized), the handler's trace has the fixed shape: every hook's
early-notification callback, then the dispatch actions, then the pool's
ProcessBlock, then every hook's new-block callback; and the scenario
[Normal (first), Normal, EpochTransition, Suspended] in the all-success
environment yields the notification sequence
[EpochTransition, RoundTransition, EpochTransition, Suspend]. -/
theorem c8_fixed_order_and_scenario :
    (∀ (env : Env) (s : NodeState) (blk : Block) (h : Int)
        (cb : LightBlock) (disp : List Action),
      env.getLightBlock h = some cb →
      env.getRuntime h ≠ RegistryLookup.lookupFailed →
      (env.getEpoch h).isSome = true →
      dispatchActions env s.currentBlock.isNone blk h = some disp →
      ∃ info, (handleNewBlockLocked env s blk h).2
        = Action.incProcessedBlockCount
            :: (List.range env.numHooks).map Action.hookNewBlockEarly
            ++ disp ++ [Action.poolProcessBlock info]
            ++ (List.range env.numHooks).map Action.hookNewBlock) ∧
    notifs (handleBlocks envOk freshState scenarioBlocks).2
      = [Notif.epochTransition, Notif.roundTransition,
          Notif.epochTransition, Notif.suspend] := by
  refine ⟨?_, by decide⟩
  intro env s blk h cb disp hlb hreg hep hd
  exact (handle_trace_cases env s blk h cb hlb hreg hep).2 disp hd

/-- C8 witness: a non-first Normal block in the all-success environment
has the early-hooks / round-transition / pool / new-block-hooks trace. -/
theorem c8_witness :
    ∃ info, (handleNewBlockLocked envOk stateWithBlock blkNormal0 11).2
      = Action.incProcessedBlockCount
          :: (List.range envOk.numHooks).map Action.hookNewBlockEarly
          ++ [Action.groupRoundTransition] ++ [Action.poolProcessBlock info]
          ++ (List.range envOk.numHooks).map Action.hookNewBlock :=
  c8_fixed_order_and_scenario.1 envOk stateWithBlock blkNormal0 11
    { height := 11 } [Action.groupRoundTransition] rfl (by decide) rfl
    (by decide)

theorem mem_handleEpochTransition (env : Env) (h : Int) :
    ∀ a ∈ handleEpochTransitionLocked env h, isBlockLevelAct a = true := by
  intro a ha
  simp only [handleEpochTransitionLocked, List.mem_cons, List.mem_append,
    List.mem_map, List.mem_range, List.not_mem_nil, or_false] at ha
  rcases ha with (rfl | rfl | rfl) | ⟨i, _, rfl⟩ <;> rfl

theorem mem_handleSuspend (env : Env) :
    ∀ a ∈ handleSuspendLocked env, isBlockLevelAct a = true := by
  intro a ha
  simp only [handleSuspendLocked, List.mem_cons, List.mem_map,
    List.mem_range] at ha
  rcases ha with rfl | ⟨i, _, rfl⟩ <;> rfl

theorem mem_dispatch (env : Env) (first : Bool) (blk : Block) (h : Int)
    (disp : List Action)
    (hd : dispatchActions env first blk h = some disp) :
    ∀ a ∈ disp, isBlockLevelAct a = true := by
  intro a ha
  unfold dispatchActions at hd
  by_cases hN : blk.headerType = headerNormal
  · rw [if_pos hN] at hd
    cases hd
    cases first with
    | true => exact mem_handleEpochTransition env h a ha
    | false =>
      rcases List.mem_cons.mp ha with rfl | ha2
      · rfl
      · exact absurd ha2 (List.not_mem_nil a)
  · rw [if_neg hN] at hd
    by_cases hR : blk.headerType = headerRoundFailed
    · rw [if_pos hR] at hd
      cases hd
      cases first with
      | true => exact mem_handleEpochTransition env h a ha
      | false =>
        rcases List.mem_cons.mp ha with rfl | ha2
        · rfl
        rcases List.mem_cons.mp ha2 with rfl | ha3
        · rfl
        · exact absurd ha3 (List.not_mem_nil a)
    · rw [if_neg hR] at hd
      by_cases hE : blk.headerType = headerEpochTransition
      · rw [if_pos hE] at hd
        cases hd
        exact mem_handleEpochTransition env h a ha
      · rw [if_neg hE] at hd
        by_cases hS : blk.headerType = headerSuspended
        · rw [if_pos hS] at hd
          cases hd
          exact mem_handleSuspend env a ha
        · rw [if_neg hS] at hd
          exact absurd hd (by simp)

theorem handle_trace_forms (env : Env) (s : NodeState) (blk : Block)
    (h : Int) :
    (handleNewBlockLocked env s blk h).2 = [Action.incProcessedBlockCount] ∨
    (handleNewBlockLocked env s blk h).2
      = Action.incProcessedBlockCount
          :: (List.range env.numHooks).map Action.hookNewBlockEarly
          ++ [Action.logDropInvalidBlock] ∨
    ∃ disp info, dispatchActions env s.currentBlock.isNone blk h = some disp ∧
      (handleNewBlockLocked env s blk h).2
        = Action.incProcessedBlockCount
            :: (List.range env.numHooks).map Action.hookNewBlockEarly
            ++ disp ++ [Action.poolProcessBlock info]
            ++ (List.range env.numHooks).map Action.hookNewBlock := by
  cases hlb : env.getLightBlock h with
  | none =>
    simp only [handleNewBlockLocked, hlb]
    exact Or.inl trivial
  | some cb =>
    simp only [handleNewBlockLocked, hlb]
    by_cases hc : (s.currentBlock.isNone
        || decide (blk.headerType = headerEpochTransition)) = true
    · rw [if_pos hc]
      rcases hrf : refreshDescriptorEpoch env
          { s with currentBlock := some blk, currentBlockHeight := h,
                   currentConsensusBlock := some cb } h with ⟨s2, b⟩
      cases b with
      | false => exact Or.inl rfl
      | true =>
        cases hd : dispatchActions env s.currentBlock.isNone blk h with
        | none => exact Or.inr (Or.inl rfl)
        | some disp => exact Or.inr (Or.inr ⟨disp, _, rfl, rfl⟩)
    · rw [if_neg hc]
      cases hd : dispatchActions env s.currentBlock.isNone blk h with
      | none => exact Or.inr (Or.inl rfl)
      | some disp => exact Or.inr (Or.inr ⟨disp, _, rfl, rfl⟩)

theorem handle_trace_mem (env : Env) (s : NodeState) (blk : Block)
    (h : Int) :
    ∀ a ∈ (handleNewBlockLocked env s blk h).2,
      isBlockLevelAct a = true := by
  intro a ha
  rcases handle_trace_forms env s blk h with h1 | h1 | ⟨disp, info, hd, h1⟩ <;>
    rw [h1] at ha
  · simp only [List.mem_cons, List.not_mem_nil, or_false] at ha
    subst ha
    rfl
  · rcases List.mem_cons.mp ha with rfl | ha2
    · rfl
    rcases List.mem_append.mp ha2 with ha3 | ha3
    · obtain ⟨i, _, rfl⟩ := List.mem_map.mp ha3
      rfl
    · simp only [List.mem_cons, List.not_mem_nil, or_false] at ha3
      subst ha3
      rfl
  · rcases List.mem_cons.mp ha with rfl | ha2
    · rfl
    rcases List.mem_append.mp ha2 with ha3 | ha3
    · rcases List.mem_append.mp ha3 with ha4 | ha4
      · rcases List.mem_append.mp ha4 with ha5 | ha5
        · obtain ⟨i, _, rfl⟩ := List.mem_map.mp ha5
          rfl
        · exact mem_dispatch env s.currentBlock.isNone blk h disp hd a ha5
      · simp only [List.mem_cons, List.not_mem_nil, or_false] at ha4
        subst ha4
        rfl
    · obtain ⟨i, _, rfl⟩ := List.mem_map.mp ha3
      rfl

theorem isLoopAct_of_isBlockLevelAct (a : Action)
    (h : isBlockLevelAct a = true) : isLoopAct a = true := by
  cases a <;> first | rfl | exact h

theorem waitHooks_mem (env : Env) (l : List Nat) :
    ∀ a ∈ (waitHooksReadyGo env l).1, ∃ i, a = Action.waitHookReady i := by
  induction l with
  | nil => intro a ha; simp [waitHooksReadyGo] at ha
  | cons i rest ih =>
    intro a ha
    simp only [waitHooksReadyGo] at ha
    by_cases hr : env.hookReadyOutcome i = true
    · rw [if_pos hr] at ha
      rcases List.mem_cons.mp ha with rfl | ha2
      · exact ⟨i, rfl⟩
      · exact ih a ha2
    · rw [if_neg hr] at ha
      simp at ha

theorem runLoop_trace_mem (env : Env) (evs : List InEvent) :
    ∀ st, ∀ a ∈ (runLoop env evs st).2, isLoopAct a = true := by
  induction evs with
  | nil => intro st a ha; simp [runLoop] at ha
  | cons ev rest ih =>
    intro st a ha
    cases ev with
    | stopSignal => simp [runLoop] at ha
    | consensusClosed => simp [runLoop] at ha
    | consensusBlock hh =>
      simp only [runLoop] at ha
      exact ih _ a ha
    | runtimeBlock blk hh =>
      simp only [runLoop] at ha
      by_cases hi : st.inited = true
      · rw [if_pos hi] at ha
        rcases List.mem_append.mp ha with h1 | h1
        · exact isLoopAct_of_isBlockLevelAct a
            (handle_trace_mem env st.node blk hh a h1)
        · exact ih _ a h1
      · rw [if_neg hi] at ha
        by_cases hw : (waitHooksReady env).2 = true
        · rw [if_pos hw] at ha
          rcases List.mem_cons.mp ha with rfl | ha2
          · rfl
          rcases List.mem_append.mp ha2 with h1 | h1
          · rcases List.mem_append.mp h1 with h2 | h2
            · obtain ⟨i, rfl⟩ := waitHooks_mem env _ a h2
              rfl
            · exact isLoopAct_of_isBlockLevelAct a
                (handle_trace_mem env st.node blk hh a h2)
          · exact ih _ a h1
        · rw [if_neg hw] at ha
          rcases List.mem_cons.mp ha with rfl | ha2
          · rfl
          · obtain ⟨i, rfl⟩ := waitHooks_mem env _ a ha2
            rfl
    | roothashEvent =>
      simp only [runLoop] at ha
      rcases List.mem_cons.mp ha with rfl | ha2
      · rfl
      rcases List.mem_append.mp ha2 with h1 | h1
      · obtain ⟨i, _, rfl⟩ := List.mem_map.mp h1
        rfl
      · exact ih _ a h1
    | hostEvent =>
      simp only [runLoop] at ha
      rcases List.mem_append.mp ha with h1 | h1
      · obtain ⟨i, _, rfl⟩ := List.mem_map.mp h1
        rfl
      · exact ih _ a h1

theorem count_eq_zero_of_pred (l : List Action) (p : Action → Bool)
    (hmem : ∀ a ∈ l, p a = true) (a : Action) (hpa : p a = false) :
    l.count a = 0 := by
  apply List.count_eq_zero.mpr
  intro hm
  rw [hmem a hm] at hpa
  cases hpa

theorem count_map_eq_zero (a : Action) (f : Nat → Action) (l : List Nat)
    (h : ∀ i, f i ≠ a) : (l.map f).count a = 0 := by
  apply List.count_eq_zero.mpr
  intro hm
  obtain ⟨i, _, hfi⟩ := List.mem_map.mp hm
  exact h i hfi

theorem handle_count_closeInit (env : Env) (s : NodeState) (blk : Block)
    (h : Int) :
    (handleNewBlockLocked env s blk h).2.count Action.closeInitCh = 0 :=
  count_eq_zero_of_pred _ isBlockLevelAct (handle_trace_mem env s blk h)
    Action.closeInitCh rfl

theorem waitHooks_count_closeInit (env : Env) :
    (waitHooksReady env).1.count Action.closeInitCh = 0 := by
  apply List.count_eq_zero.mpr
  intro hm
  obtain ⟨i, hi⟩ := waitHooks_mem env (List.range env.numHooks)
    Action.closeInitCh hm
  cases hi

theorem runLoop_count_closeInit_inited (env : Env) (evs : List InEvent) :
    ∀ st : LoopState, st.inited = true →
      (runLoop env evs st).2.count Action.closeInitCh = 0 := by
  induction evs with
  | nil => intro st _; rfl
  | cons ev rest ih =>
    intro st hst
    cases ev with
    | stopSignal => rfl
    | consensusClosed => rfl
    | consensusBlock hh =>
      simp only [runLoop]
      exact ih _ hst
    | runtimeBlock blk hh =>
      simp only [runLoop]
      rw [if_pos hst]
      simp only [List.count_append]
      rw [handle_count_closeInit,
        ih { node := (handleNewBlockLocked env st.node blk hh).1,
             inited := st.inited } hst]
    | roothashEvent =>
      simp only [runLoop, List.count_cons, List.count_append]
      rw [ih _ hst, count_map_eq_zero Action.closeInitCh
        Action.hookNewEvent _ (fun i h0 => by cases h0)]
      rfl
    | hostEvent =>
      simp only [runLoop, List.count_append]
      rw [ih _ hst, count_map_eq_zero Action.closeInitCh
        Action.hookRuntimeHostEvent _ (fun i h0 => by cases h0)]

/-- C3 counterexample: with one registered hook whose readiness is
observed only during the wait, the first runtime block makes the loop
close initCh first (trace position 0) and only then observe the hook's
readiness (trace position 1) — the code closes initCh BEFORE waiting for
the hooks, so "the signal fires only after every registered hook has
reported its own readiness" is false. -/
theorem c3_counterexample :
    ((runLoop envOk [InEvent.runtimeBlock blkNormal0 5]
        { node := freshState, inited := false }).2.take 2
      = [Action.closeInitCh, Action.waitHookReady 0]) ∧
    (runLoop envOk [InEvent.runtimeBlock blkNormal0 5]
        { node := freshState, inited := false }).2.count
      Action.closeInitCh = 1 := by
  decide

/-- C3 (amended): initCh closes at most once, never when no runtime block
arrives, and exactly once — as the very first action, BEFORE the loop
observes each registered hook's readiness — when the first runtime block
arrives; if the stop signal preempts the readiness wait, the loop
terminates with initCh closed and the block unhandled. -/
theorem c3_init_fires_once_before_hook_waits :
    (∀ (env : Env) (evs : List InEvent) (st : LoopState),
      st.inited = false →
      (runLoop env evs st).2.count Action.closeInitCh ≤ 1) ∧
    (∀ (env : Env) (evs : List InEvent) (st : LoopState),
      st.inited = false →
      (∀ blk hh, InEvent.runtimeBlock blk hh ∉ evs) →
      (runLoop env evs st).2.count Action.closeInitCh = 0) ∧
    (∀ (env : Env) (blk : Block) (hh : Int) (rest : List InEvent)
        (st : LoopState), st.inited = false →
      (runLoop env (InEvent.runtimeBlock blk hh :: rest) st).2.count
          Action.closeInitCh = 1 ∧
      (runLoop env (InEvent.runtimeBlock blk hh :: rest) st).2.take
          (1 + (waitHooksReady env).1.length)
        = Action.closeInitCh :: (waitHooksReady env).1) ∧
    (∀ (env : Env) (blk : Block) (hh : Int) (rest : List InEvent)
        (st : LoopState), st.inited = false →
      (waitHooksReady env).2 = false →
      runLoop env (InEvent.runtimeBlock blk hh :: rest) st
        = ({ st with inited := true },
            Action.closeInitCh :: (waitHooksReady env).1)) := by
  have hblock : ∀ (env : Env) (blk : Block) (hh : Int)
      (rest : List InEvent) (st : LoopState), st.inited = false →
      (runLoop env (InEvent.runtimeBlock blk hh :: rest) st).2.count
          Action.closeInitCh = 1 ∧
      (runLoop env (InEvent.runtimeBlock blk hh :: rest) st).2.take
          (1 + (waitHooksReady env).1.length)
        = Action.closeInitCh :: (waitHooksReady env).1 := by
    intro env blk hh rest st hst
    simp only [runLoop]
    rw [if_neg (by rw [hst]; exact Bool.false_ne_true)]
    by_cases hw : (waitHooksReady env).2 = true
    · rw [if_pos hw]
      constructor
      · simp only [List.count_cons, List.count_append]
        rw [waitHooks_count_closeInit, handle_count_closeInit,
          runLoop_count_closeInit_inited env rest _ rfl]
        rfl
      · simp only [List.take_succ_cons, Nat.add_comm 1, List.take_succ_cons]
        rw [List.append_assoc, List.take_left]
    · rw [if_neg hw]
      constructor
      · simp only [List.count_cons, List.count_append]
        rw [waitHooks_count_closeInit]
        rfl
      · simp only [List.take_succ_cons, Nat.add_comm 1, List.take_succ_cons]
        exact congrArg _ (List.take_of_length_le (Nat.le_refl _))
  refine ⟨?_, ?_, hblock, ?_⟩
  · intro env evs
    induction evs with
    | nil => intro st _; exact Nat.zero_le 1
    | cons ev rest ih =>
      intro st hst
      cases ev with
      | stopSignal => exact Nat.zero_le 1
      | consensusClosed => exact Nat.zero_le 1
      | consensusBlock hh =>
        simp only [runLoop]
        exact ih _ hst
      | runtimeBlock blk hh =>
        rw [(hblock env blk hh rest st hst).1]
      | roothashEvent =>
        simp only [runLoop, List.count_cons, List.count_append]
        have h0 := count_map_eq_zero Action.closeInitCh
          Action.hookNewEvent (List.range env.numHooks)
          (fun i h0 => by cases h0)
        rw [h0]
        simpa using ih _ hst
      | hostEvent =>
        simp only [runLoop, List.count_append]
        have h0 := count_map_eq_zero Action.closeInitCh
          Action.hookRuntimeHostEvent (List.range env.numHooks)
          (fun i h0 => by cases h0)
        rw [h0]
        simpa using ih _ hst
  · intro env evs
    induction evs with
    | nil => intro st _ _; rfl
    | cons ev rest ih =>
      intro st hst hno
      have hno' : ∀ blk hh, InEvent.runtimeBlock blk hh ∉ rest :=
        fun blk hh hm => hno blk hh (List.mem_cons_of_mem _ hm)
      cases ev with
      | stopSignal => rfl
      | consensusClosed => rfl
      | consensusBlock hh =>
        simp only [runLoop]
        exact ih _ hst hno'
      | runtimeBlock blk hh =>
        exact absurd (List.mem_cons_self _ _) (hno blk hh)
      | roothashEvent =>
        simp only [runLoop, List.count_cons, List.count_append]
        have h0 := count_map_eq_zero Action.closeInitCh
          Action.hookNewEvent (List.range env.numHooks)
          (fun i h0 => by cases h0)
        rw [h0, ih _ hst hno']
        rfl
      | hostEvent =>
        simp only [runLoop, List.count_append]
        have h0 := count_map_eq_zero Action.closeInitCh
          Action.hookRuntimeHostEvent (List.range env.numHooks)
          (fun i h0 => by cases h0)
        rw [h0, ih _ hst hno']
  · intro env blk hh rest st hst hw
    simp only [runLoop]
    rw [if_neg (by rw [hst]; exact Bool.false_ne_true),
      if_neg (by rw [hw]; exact Bool.false_ne_true)]

/-- C3 witness: the single-hook all-success environment with one runtime
block, starting uninitialized. -/
theorem c3_witness :
    (runLoop envOk [InEvent.runtimeBlock blkNormal0 5]
        { node := freshState, inited := false }).2.count
      Action.closeInitCh = 1 ∧
    (runLoop envOk []
        { node := freshState, inited := false }).2.count
      Action.closeInitCh = 0 :=
  ⟨(c3_init_fires_once_before_hook_waits.2.2.1 envOk blkNormal0 5 []
      { node := freshState, inited := false } rfl).1,
    c3_init_fires_once_before_hook_waits.2.1 envOk []
      { node := freshState, inited := false } rfl
      (fun _ _ h => absurd h (List.not_mem_nil _))⟩

theorem nodeStopN_stopped (n : Nat) :
    nodeStopN n { stopped := true } = ({ stopped := true }, []) := by
  induction n with
  | zero => rfl
  | succ m ih => simp [nodeStopN, nodeStop, ih]

theorem runLoop_count_closeQuit (env : Env) (evs : List InEvent)
    (st : LoopState) :
    (runLoop env evs st).2.count Action.closeQuitCh = 0 :=
  count_eq_zero_of_pred _ isLoopAct (runLoop_trace_mem env evs st)
    Action.closeQuitCh rfl

theorem workerExit_quit (d : List Action) (s : NodeState)
    (acts : List Action)
    (hc : d.count Action.closeQuitCh = 1)
    (hh : d.head? = some Action.closeQuitCh)
    (ha : acts.count Action.closeQuitCh = 0) :
    (workerExit d s acts).2.count Action.closeQuitCh = 1 ∧
    (workerExit d s acts).2.getLast? = some Action.closeQuitCh := by
  constructor
  · simp only [workerExit, List.count_append, List.count_reverse, ha, hc]
  · have hne : d.reverse ≠ [] := by
      intro h0
      have hd0 : d = [] := by
        have := congrArg List.reverse h0
        simpa using this
      rw [hd0] at hh
      cases hh
    simp only [workerExit]
    rw [List.getLast?_append_of_ne_nil _ hne, List.getLast?_reverse]
    exact hh

theorem quit_inv_snoc (d : List Action) (x : Action)
    (hx : x ≠ Action.closeQuitCh)
    (hc : d.count Action.closeQuitCh = 1)
    (hh : d.head? = some Action.closeQuitCh) :
    (d ++ [x]).count Action.closeQuitCh = 1 ∧
    (d ++ [x]).head? = some Action.closeQuitCh := by
  constructor
  · have h0 : List.count Action.closeQuitCh [x] = 0 :=
      List.count_eq_zero.mpr (fun h => hx (List.mem_singleton.mp h).symm)
    rw [List.count_append, hc, h0]
  · cases d with
    | nil => cases hh
    | cons a t => simpa using hh

theorem workerAfterKM_quit (se : StartEnv) (env : Env) (evs : List InEvent)
    (s : NodeState) (d : List Action)
    (hc : d.count Action.closeQuitCh = 1)
    (hh : d.head? = some Action.closeQuitCh) :
    (workerAfterKM se env evs s d).2.count Action.closeQuitCh = 1 ∧
    (workerAfterKM se env evs s d).2.getLast?
      = some Action.closeQuitCh := by
  have hn : List.count Action.closeQuitCh ([] : List Action) = 0 := rfl
  have h1 := quit_inv_snoc d (Action.subClose 0) (by decide) hc hh
  have h2 := quit_inv_snoc _ (Action.subClose 1) (by decide) h1.1 h1.2
  have h3 := quit_inv_snoc _ (Action.subClose 2) (by decide) h2.1 h2.2
  have h4 := quit_inv_snoc _ (Action.subClose 3) (by decide) h3.1 h3.2
  have h5 := quit_inv_snoc _ Action.hrtStop (by decide) h4.1 h4.2
  have h6 := quit_inv_snoc _ Action.notifierStop (by decide) h5.1 h5.2
  simp only [workerAfterKM]
  by_cases b1 : se.watchConsensusOk = false
  · rw [if_pos b1]
    exact workerExit_quit _ _ _ hc hh hn
  rw [if_neg b1]
  by_cases b2 : se.watchBlocksOk = false
  · rw [if_pos b2]
    exact workerExit_quit _ _ _ h1.1 h1.2 hn
  rw [if_neg b2]
  by_cases b3 : se.watchEventsOk = false
  · rw [if_pos b3]
    exact workerExit_quit _ _ _ h2.1 h2.2 hn
  rw [if_neg b3]
  by_cases b4 : se.provisionOk = false
  · rw [if_pos b4]
    exact workerExit_quit _ _ _ h3.1 h3.2 hn
  rw [if_neg b4]
  by_cases b5 : se.hrtWatchOk = false
  · rw [if_pos b5]
    exact workerExit_quit _ _ _ h3.1 h3.2 hn
  rw [if_neg b5]
  by_cases b6 : se.hrtStartOk = false
  · rw [if_pos b6]
    exact workerExit_quit _ _ _ h4.1 h4.2 hn
  rw [if_neg b6]
  by_cases b7 : se.notifierStartOk = false
  · rw [if_pos b7]
    exact workerExit_quit _ _ _ h5.1 h5.2 hn
  rw [if_neg b7]
  exact workerExit_quit _ _ _ h6.1 h6.2
    (runLoop_count_closeQuit env evs { node := s, inited := false })

/-- C7: Stop is idempotent — any positive number of invocations produces
exactly one stop-channel close and one pool stop — and the worker's trace
closes the Quit channel exactly once, as its very last action (the first
registered defer runs last), whatever the startup outcomes and event
arrivals. -/
theorem c7_stop_idempotent_quit_last :
    (∀ n, 1 ≤ n → (nodeStopN n { stopped := false }).2
        = [Action.closeStopCh, Action.poolStop]) ∧
    (∀ (se : StartEnv) (env : Env) (evs : List InEvent) (s0 : NodeState),
      (worker se env evs s0).2.count Action.closeQuitCh = 1 ∧
      (worker se env evs s0).2.getLast? = some Action.closeQuitCh) := by
  constructor
  · intro n hn
    cases n with
    | zero => cases hn
    | succ m =>
      simp only [nodeStopN, nodeStop]
      rw [if_neg (by intro h; cases h)]
      rw [nodeStopN_stopped]
      rfl
  · intro se env evs s0
    have hc : List.count Action.closeQuitCh
        [Action.closeQuitCh, Action.cancelCtx] = 1 := by decide
    have hh : List.head? [Action.closeQuitCh, Action.cancelCtx]
        = some Action.closeQuitCh := rfl
    have hn : List.count Action.closeQuitCh ([] : List Action) = 0 := rfl
    simp only [worker]
    by_cases b1 : se.syncOk = false
    · rw [if_pos b1]
      exact workerExit_quit _ _ _ hc hh hn
    rw [if_neg b1]
    split
    · exact workerExit_quit _ _ _ hc hh hn
    · rename_i rt heq
      by_cases bkm : rt.keyManager.isSome = true
      · rw [if_pos bkm]
        by_cases b2 : se.kmCreateOk = false
        · rw [if_pos b2]
          exact workerExit_quit _ _ _ hc hh hn
        rw [if_neg b2]
        by_cases b3 : se.kmReadyOk = false
        · rw [if_pos b3]
          exact workerExit_quit _ _ _ hc hh hn
        rw [if_neg b3]
        exact workerAfterKM_quit se env evs _ _ hc hh
      · rw [if_neg bkm]
        exact workerAfterKM_quit se env evs _ _ hc hh

/-- C7 witness: two consecutive Stop invocations from the fresh state,
and a concrete worker run (all-success startup, one stop event). -/
theorem c7_witness :
    (nodeStopN 2 { stopped := false }).2
      = [Action.closeStopCh, Action.poolStop] ∧
    (worker startOk envOk [InEvent.stopSignal] freshState).2.getLast?
      = some Action.closeQuitCh :=
  ⟨c7_stop_idempotent_quit_last.1 2 (by decide),
    (c7_stop_idempotent_quit_last.2 startOk envOk [InEvent.stopSignal]
      freshState).2⟩

theorem refresh_desc_cases (env : Env) (s : NodeState) (h : Int) :
    (refreshDescriptorEpoch env s h).1.currentDescriptor
        = s.currentDescriptor ∨
    ∃ ad, (refreshDescriptorEpoch env s h).1.currentDescriptor
        = some ad := by
  unfold refreshDescriptorEpoch
  cases hr : env.getRuntime h with
  | lookupFailed => exact Or.inl rfl
  | found ad =>
    cases he : env.getEpoch h with
    | none => exact Or.inr ⟨ad, rfl⟩
    | some e => exact Or.inr ⟨ad, rfl⟩
  | noSuchRuntime =>
    cases he : env.getEpoch h with
    | none => exact Or.inl rfl
    | some e => exact Or.inl rfl

theorem handle_desc_cases (env : Env) (s : NodeState) (blk : Block)
    (h : Int) :
    (handleNewBlockLocked env s blk h).1.currentDescriptor
        = s.currentDescriptor ∨
    ∃ ad, (handleNewBlockLocked env s blk h).1.currentDescriptor
        = some ad := by
  cases hlb : env.getLightBlock h with
  | none =>
    simp only [handleNewBlockLocked, hlb]
    exact Or.inl trivial
  | some cb =>
    simp only [handleNewBlockLocked, hlb]
    by_cases hc : (s.currentBlock.isNone
        || decide (blk.headerType = headerEpochTransition)) = true
    · rw [if_pos hc]
      have hd := refresh_desc_cases env
        { s with currentBlock := some blk, currentBlockHeight := h,
                 currentConsensusBlock := some cb } h
      rcases hrf : refreshDescriptorEpoch env
          { s with currentBlock := some blk, currentBlockHeight := h,
                   currentConsensusBlock := some cb } h with ⟨s2, b⟩
      rw [hrf] at hd
      cases b with
      | false => exact hd
      | true =>
        cases hdisp : dispatchActions env s.currentBlock.isNone blk h with
        | none => exact hd
        | some disp => exact hd
    · rw [if_neg hc]
      cases hdisp : dispatchActions env s.currentBlock.isNone blk h with
      | none => exact Or.inl rfl
      | some disp => exact Or.inl rfl

theorem handle_desc_isSome (env : Env) (s : NodeState) (blk : Block)
    (h : Int) (hs : s.currentDescriptor.isSome = true) :
    ((handleNewBlockLocked env s blk h).1.currentDescriptor).isSome
      = true := by
  rcases handle_desc_cases env s blk h with hd | ⟨ad, hd⟩ <;> rw [hd]
  · exact hs
  · rfl

theorem runLoop_desc_isSome (env : Env) (evs : List InEvent) :
    ∀ st : LoopState, st.node.currentDescriptor.isSome = true →
      ((runLoop env evs st).1.node.currentDescriptor).isSome = true := by
  induction evs with
  | nil => intro st hs; exact hs
  | cons ev rest ih =>
    intro st hs
    cases ev with
    | stopSignal => exact hs
    | consensusClosed => exact hs
    | consensusBlock hh =>
      simp only [runLoop]
      exact ih _ hs
    | runtimeBlock blk hh =>
      simp only [runLoop]
      by_cases hi : st.inited = true
      · rw [if_pos hi]
        exact ih _ (handle_desc_isSome env st.node blk hh hs)
      · rw [if_neg hi]
        by_cases hw : (waitHooksReady env).2 = true
        · rw [if_pos hw]
          exact ih _ (handle_desc_isSome env st.node blk hh hs)
        · rw [if_neg hw]
          exact hs
    | roothashEvent =>
      simp only [runLoop]
      exact ih _ hs
    | hostEvent =>
      simp only [runLoop]
      exact ih _ hs

theorem workerAfterKM_desc (se : StartEnv) (env : Env) (evs : List InEvent)
    (s : NodeState) (d : List Action)
    (hs : s.currentDescriptor.isSome = true) :
    ((workerAfterKM se env evs s d).1.currentDescriptor).isSome
      = true := by
  simp only [workerAfterKM]
  by_cases b1 : se.watchConsensusOk = false
  · rw [if_pos b1]; exact hs
  rw [if_neg b1]
  by_cases b2 : se.watchBlocksOk = false
  · rw [if_pos b2]; exact hs
  rw [if_neg b2]
  by_cases b3 : se.watchEventsOk = false
  · rw [if_pos b3]; exact hs
  rw [if_neg b3]
  by_cases b4 : se.provisionOk = false
  · rw [if_pos b4]; exact hs
  rw [if_neg b4]
  by_cases b5 : se.hrtWatchOk = false
  · rw [if_pos b5]; exact hs
  rw [if_neg b5]
  by_cases b6 : se.hrtStartOk = false
  · rw [if_pos b6]; exact hs
  rw [if_neg b6]
  by_cases b7 : se.notifierStartOk = false
  · rw [if_pos b7]; exact hs
  rw [if_neg b7]
  exact runLoop_desc_isSome env evs { node := s, inited := false } hs

/-- C10: CurrentDescriptor never goes back to nil once set — the
per-block handler either retains it or replaces it with a fetched
descriptor; the event loop preserves it across every event; and any
worker run that got past the active-descriptor wait (sync completed and
the wait returned a descriptor) ends with a non-nil CurrentDescriptor,
whatever happens afterwards. -/
theorem c10_descriptor_nonnil_invariant :
    (∀ (env : Env) (s : NodeState) (blk : Block) (h : Int),
      s.currentDescriptor.isSome = true →
      ((handleNewBlockLocked env s blk h).1.currentDescriptor).isSome
        = true) ∧
    (∀ (env : Env) (evs : List InEvent) (st : LoopState),
      st.node.currentDescriptor.isSome = true →
      ((runLoop env evs st).1.node.currentDescriptor).isSome = true) ∧
    (∀ (se : StartEnv) (env : Env) (evs : List InEvent) (s0 : NodeState)
        (rt : RuntimeDescriptor),
      se.syncOk = true → se.activeDescriptor = some rt →
      ((worker se env evs s0).1.currentDescriptor).isSome = true) := by
  refine ⟨handle_desc_isSome, fun env evs => runLoop_desc_isSome env evs, ?_⟩
  intro se env evs s0 rt hsync had
  simp only [worker]
  rw [if_neg (by rw [hsync]; intro h0; cases h0)]
  split
  · rename_i heq
    rw [had] at heq
    cases heq
  · rename_i rt2 heq
    by_cases bkm : rt2.keyManager.isSome = true
    · rw [if_pos bkm]
      by_cases b2 : se.kmCreateOk = false
      · rw [if_pos b2]; rfl
      rw [if_neg b2]
      by_cases b3 : se.kmReadyOk = false
      · rw [if_pos b3]; rfl
      rw [if_neg b3]
      exact workerAfterKM_desc se env evs _ _ rfl
    · rw [if_neg bkm]
      exact workerAfterKM_desc se env evs _ _ rfl

/-- C10 witness: a worker run with successful startup, one runtime block
and a stop, starting from the fresh (nil-descriptor) state, ends with a
non-nil descriptor; and the handler preserves non-nil on a concrete
later block. -/
theorem c10_witness :
    ((worker startOk envOk
        [InEvent.runtimeBlock blkNormal0 5, InEvent.stopSignal]
        freshState).1.currentDescriptor).isSome = true ∧
    ((handleNewBlockLocked envNoSuchRuntime stateWithBlock
        { headerType := headerEpochTransition, round := 4 }
        11).1.currentDescriptor).isSome = true :=
  ⟨c10_descriptor_nonnil_invariant.2.2 startOk envOk
      [InEvent.runtimeBlock blkNormal0 5, InEvent.stopSignal]
      freshState descA rfl rfl,
    c10_descriptor_nonnil_invariant.1 envNoSuchRuntime stateWithBlock
      { headerType := headerEpochTransition, round := 4 } 11 rfl⟩

end OasisCommittee
